import Mathlib

/-!
Verification of the Enviro+ sensor-logger (`src/main.py`) against its
natural-language specification.

The development shallowly embeds the pure decision logic of the script:

* the sensor-value sanitizer (`sanitize`, module dict `_last_good`);
* the failed-data spool (`save_failed_data`, `load_failed_data`,
  `retry_failed_data`) including the file-location logic;
* the bounded-retry delivery loop (`send_with_retry`) with an explicit
  rational-valued clock replacing `time.time()` / `time.sleep()`;
* the main-loop connection/reconnection phase and the points build;
* the cycle scheduler's overrun-aware sleep computation.

Python floats are modelled as rationals (ℚ); `None`/NaN/infinity sensor
candidates, which the script treats identically, are modelled as `none`.
File-system writes are modelled as always succeeding except where a claim
is specifically about a failing write path.
-/

namespace PiZero

/-- One InfluxDB point as built by the main loop: a measurement name, the
device tag (`tags["device"]`), the cycle timestamp and the single numeric
field `fields["value"]`. -/
structure Point where
  measurement : String
  device : String
  time : String
  value : ℚ
deriving DecidableEq, Repr

/-- One entry of the failed-data spool file: `timestamp`, `saved_at`, and the
batch `points_data` (`save_failed_data`, lines 248-252). -/
structure SpoolEntry where
  timestamp : String
  saved_at : String
  points_data : List Point
deriving DecidableEq, Repr

/-! ## Sanitizer (`sanitize`, `_last_good`, lines 96-120)

The module dict `_last_good` keys state by metric name; distinct names never
interact, so the embedding carries the state of a single metric as an
`Option ℚ` (`none` = no value ever accepted). A candidate of `none` stands
for Python `None`, NaN or ±inf, which lines 106-109 reject identically. -/

/-- Line 111: `min_v is not None and new < min_v`. -/
def belowMin (min_v : Option ℚ) (x : ℚ) : Bool :=
  match min_v with
  | some m => decide (x < m)
  | none => false

/-- Line 113: `max_v is not None and new > max_v`. -/
def aboveMax (max_v : Option ℚ) (x : ℚ) : Bool :=
  match max_v with
  | some m => decide (m < x)
  | none => false

/-- Line 116: `old is not None and max_step is not None and abs(new - old) > max_step`. -/
def stepTooBig (old max_step : Option ℚ) (x : ℚ) : Bool :=
  match old, max_step with
  | some o, some s => decide (s < |x - o|)
  | _, _ => false

/-- `sanitize(name, new, min_v, max_v, max_step)` for one metric.
Returns (returned value, new `_last_good` state). Mirrors lines 98-120:
each rejecting branch returns `old` and leaves the state untouched; the
final branch stores and returns the candidate. -/
def sanitize (min_v max_v max_step : Option ℚ) (old : Option ℚ) (new : Option ℚ) :
    Option ℚ × Option ℚ :=
  match new with
  | none => (old, old)
  | some x =>
    if belowMin min_v x then (old, old)
    else if aboveMax max_v x then (old, old)
    else if stepTooBig old max_step x then (old, old)
    else (some x, some x)

/-- A call accepts (reaches line 119 and stores the candidate) iff the
candidate is present and passes all three gates. -/
def sanitizeAccepts (min_v max_v max_step : Option ℚ) (old : Option ℚ)
    (new : Option ℚ) : Bool :=
  match new with
  | none => false
  | some x => !belowMin min_v x && !aboveMax max_v x && !stepTooBig old max_step x

/-- The subsequence of candidates that `sanitize` accepts (stores) when the
candidate sequence `cs` is fed to it one call per cycle, starting from
state `st`. -/
def acceptedList (min_v max_v max_step : Option ℚ) :
    Option ℚ → List (Option ℚ) → List ℚ
  | _, [] => []
  | st, c :: cs =>
    if sanitizeAccepts min_v max_v max_step st c then
      c.toList ++ acceptedList min_v max_v max_step
        (sanitize min_v max_v max_step st c).2 cs
    else
      acceptedList min_v max_v max_step (sanitize min_v max_v max_step st c).2 cs

/-- The sequence of values `sanitize` returns over a run. -/
def sanitizeOutputs (min_v max_v max_step : Option ℚ) :
    Option ℚ → List (Option ℚ) → List (Option ℚ)
  | _, [] => []
  | st, c :: cs =>
    (sanitize min_v max_v max_step st c).1 ::
      sanitizeOutputs min_v max_v max_step (sanitize min_v max_v max_step st c).2 cs

/-- The `_last_good` state after a run. -/
def sanitizeFinal (min_v max_v max_step : Option ℚ) :
    Option ℚ → List (Option ℚ) → Option ℚ
  | st, [] => st
  | st, c :: cs =>
    sanitizeFinal min_v max_v max_step (sanitize min_v max_v max_step st c).2 cs

lemma sanitize_state_of_not_accepts (min_v max_v max_step : Option ℚ)
    (st c : Option ℚ) (h : sanitizeAccepts min_v max_v max_step st c = false) :
    (sanitize min_v max_v max_step st c).2 = st := by
  cases c with
  | none => rfl
  | some x =>
    simp only [sanitizeAccepts, Bool.and_eq_false_iff, Bool.not_eq_false'] at h
    simp only [sanitize]
    rcases h with (h | h) | h
    · simp [h]
    · cases hb : belowMin min_v x <;> simp [hb, h]
    · cases hb : belowMin min_v x <;> cases ha : aboveMax max_v x <;> simp [hb, ha, h]

lemma sanitize_of_accepts (min_v max_v max_step : Option ℚ) (st : Option ℚ) (x : ℚ)
    (h : sanitizeAccepts min_v max_v max_step st (some x) = true) :
    sanitize min_v max_v max_step st (some x) = (some x, some x) := by
  simp only [sanitizeAccepts, Bool.and_eq_true, Bool.not_eq_true'] at h
  simp [sanitize, h.1.1, h.1.2, h.2]

lemma accepts_bounds (m M : ℚ) (max_step : Option ℚ) (st : Option ℚ) (x : ℚ)
    (h : sanitizeAccepts (some m) (some M) max_step st (some x) = true) :
    m ≤ x ∧ x ≤ M := by
  simp only [sanitizeAccepts, Bool.and_eq_true, Bool.not_eq_true'] at h
  obtain ⟨⟨h1, h2⟩, _⟩ := h
  simp only [belowMin, decide_eq_false_iff_not, not_lt] at h1
  simp only [aboveMax, decide_eq_false_iff_not, not_lt] at h2
  exact ⟨h1, h2⟩

lemma accepts_step (min_v max_v : Option ℚ) (s : ℚ) (a x : ℚ)
    (h : sanitizeAccepts min_v max_v (some s) (some a) (some x) = true) :
    |x - a| ≤ s := by
  simp only [sanitizeAccepts, Bool.and_eq_true, Bool.not_eq_true'] at h
  have := h.2
  simp only [stepTooBig, decide_eq_false_iff_not, not_lt] at this
  exact this

lemma acceptedList_bounds (m M : ℚ) (max_step : Option ℚ) :
    ∀ (cs : List (Option ℚ)) (st : Option ℚ),
      ∀ v ∈ acceptedList (some m) (some M) max_step st cs, m ≤ v ∧ v ≤ M := by
  intro cs
  induction cs with
  | nil => intro st v hv; simp [acceptedList] at hv
  | cons c cs ih =>
    intro st v hv
    by_cases hacc : sanitizeAccepts (some m) (some M) max_step st c = true
    · cases c with
      | none => simp [sanitizeAccepts] at hacc
      | some x =>
        simp only [acceptedList, hacc, if_true, Option.toList_some,
          List.cons_append, List.nil_append, List.mem_cons] at hv
        rcases hv with rfl | hv
        · exact accepts_bounds m M max_step st v hacc
        · exact ih _ v hv
    · rw [Bool.not_eq_true] at hacc
      simp only [acceptedList, hacc, if_false] at hv
      exact ih _ v hv

lemma acceptedList_chain_some (min_v max_v : Option ℚ) (s : ℚ) :
    ∀ (cs : List (Option ℚ)) (a : ℚ),
      List.Chain' (fun u v => |v - u| ≤ s)
        (a :: acceptedList min_v max_v (some s) (some a) cs) := by
  intro cs
  induction cs with
  | nil => intro a; simp [acceptedList]
  | cons c cs ih =>
    intro a
    by_cases hacc : sanitizeAccepts min_v max_v (some s) (some a) c = true
    · cases c with
      | none => simp [sanitizeAccepts] at hacc
      | some x =>
        rw [acceptedList, if_pos hacc, sanitize_of_accepts _ _ _ _ _ hacc]
        simp only [Option.toList_some, List.cons_append, List.nil_append]
        exact List.Chain'.cons (accepts_step _ _ _ _ _ hacc) (ih x)
    · rw [Bool.not_eq_true] at hacc
      rw [acceptedList, if_neg (by simp [hacc]),
        sanitize_state_of_not_accepts _ _ _ _ _ hacc]
      exact ih a

lemma acceptedList_chain_none (min_v max_v : Option ℚ) (s : ℚ) :
    ∀ (cs : List (Option ℚ)),
      List.Chain' (fun u v => |v - u| ≤ s)
        (acceptedList min_v max_v (some s) none cs) := by
  intro cs
  induction cs with
  | nil => simp [acceptedList]
  | cons c cs ih =>
    by_cases hacc : sanitizeAccepts min_v max_v (some s) none c = true
    · cases c with
      | none => simp [sanitizeAccepts] at hacc
      | some x =>
        rw [acceptedList, if_pos hacc, sanitize_of_accepts _ _ _ _ _ hacc]
        simpa using acceptedList_chain_some min_v max_v s cs x
    · rw [Bool.not_eq_true] at hacc
      rw [acceptedList, if_neg (by simp [hacc]),
        sanitize_state_of_not_accepts _ _ _ _ _ hacc]
      exact ih

/-- C4: for every metric and every sequence of candidate values fed to
`sanitize` with bounds `m`, `M` and step threshold `s`, the sequence of
accepted (stored) values never contains a value below `m` or above `M`,
and every two consecutive accepted values differ by at most `s`; the first
accepted value is exempt from the step constraint (`List.Chain'` only
constrains consecutive pairs). -/
theorem sanitize_accepted_within_bounds_and_step (m M s : ℚ)
    (cs : List (Option ℚ)) :
    (∀ v ∈ acceptedList (some m) (some M) (some s) none cs, m ≤ v ∧ v ≤ M) ∧
    List.Chain' (fun u v => |v - u| ≤ s)
      (acceptedList (some m) (some M) (some s) none cs) :=
  ⟨acceptedList_bounds m M (some s) cs none,
   acceptedList_chain_none (some m) (some M) s cs⟩

lemma sanitize_some_isSome (min_v max_v max_step : Option ℚ) (v : ℚ)
    (c : Option ℚ) :
    (sanitize min_v max_v max_step (some v) c).1.isSome = true ∧
    (sanitize min_v max_v max_step (some v) c).2.isSome = true := by
  cases c with
  | none => simp [sanitize]
  | some x =>
    simp only [sanitize]
    by_cases h1 : belowMin min_v x <;>
      by_cases h2 : aboveMax max_v x <;>
        by_cases h3 : stepTooBig (some v) max_step x <;>
          simp [h1, h2, h3]

lemma sanitize_run_isSome (min_v max_v max_step : Option ℚ) :
    ∀ (cs : List (Option ℚ)) (v : ℚ),
      (∀ o ∈ sanitizeOutputs min_v max_v max_step (some v) cs, o.isSome = true) ∧
      (sanitizeFinal min_v max_v max_step (some v) cs).isSome = true := by
  intro cs
  induction cs with
  | nil =>
    intro v
    constructor
    · intro o ho; simp [sanitizeOutputs] at ho
    · simp [sanitizeFinal]
  | cons c cs ih =>
    intro v
    obtain ⟨h1, h2⟩ := sanitize_some_isSome min_v max_v max_step v c
    obtain ⟨w, hw⟩ := Option.isSome_iff_exists.mp h2
    constructor
    · intro o ho
      simp only [sanitizeOutputs, List.mem_cons] at ho
      rcases ho with rfl | ho
      · exact h1
      · rw [hw] at ho
        exact (ih w).1 o ho
    · simp only [sanitizeFinal]
      rw [hw]
      exact (ih w).2

/-- C10: once `sanitize` has accepted (stored) a value `v` for a metric,
every subsequent call for that metric returns a non-absent value and the
stored last-good value remains non-absent: the state is never deleted or
reset, so the output can be absent only before the first acceptance. -/
theorem sanitize_never_absent_after_accept (min_v max_v max_step : Option ℚ)
    (v : ℚ) (cs : List (Option ℚ)) :
    (∀ o ∈ sanitizeOutputs min_v max_v max_step (some v) cs, o.isSome = true) ∧
    (sanitizeFinal min_v max_v max_step (some v) cs).isSome = true :=
  sanitize_run_isSome min_v max_v max_step cs v

/-! ## Spool (`save_failed_data` / `load_failed_data` / `retry_failed_data`,
lines 245-401)

The durable store is the JSON file `FAILED_DATA_FILE` plus the fallback file
`sensor_failed_data.json` in the current directory; `load_failed_data`
prefers the former. `SpoolFS` models the contents of the two files
(`none` = file absent) and whether the parent directory of
`FAILED_DATA_FILE` exists. JSON (de)serialisation round-trips exactly and
writes succeed, except for the unassigned-variable path modelled in
`save_failed_data` itself. -/

structure SpoolFS where
  primary : Option (List SpoolEntry)
  fallback : Option (List SpoolEntry)
  dirExists : Bool
deriving DecidableEq, Repr

/-- `load_failed_data` (lines 286-314): read `FAILED_DATA_FILE` if present,
else the current-directory fallback, else return `[]`. -/
def load_failed_data (fs : SpoolFS) : List SpoolEntry :=
  match fs.primary with
  | some l => l
  | none =>
    match fs.fallback with
    | some l => l
    | none => []

/-- The append-and-truncate core of `save_failed_data` (lines 258-262):
append the new entry, then `failed_data = failed_data[-cap:]` whenever the
length exceeds `cap`. The Python suffix slice `[-cap:]` is the whole list
when `cap = 0` (since `-0 == 0`), so a cap of zero never truncates. -/
def listAppendCap (cap : Nat) (l : List SpoolEntry) (e : SpoolEntry) :
    List SpoolEntry :=
  let fd := l ++ [e]
  if cap < fd.length then
    if cap = 0 then fd else fd.drop (fd.length - cap)
  else fd

/-- `save_failed_data` (lines 245-284). `dirNonempty` is whether
`os.path.dirname(FAILED_DATA_FILE)` is a non-empty string, `mkdirOk` is
whether `os.makedirs` succeeds when invoked. When the directory is missing
and `makedirs` succeeds, the local `failed_file` is never assigned, so the
`open` raises `UnboundLocalError`, which the enclosing handler swallows:
nothing is written (only the directory now exists). When `makedirs` fails,
the fallback file is written; otherwise the primary file is written. -/
def save_failed_data (cap : Nat) (dirNonempty mkdirOk : Bool) (fs : SpoolFS)
    (e : SpoolEntry) : SpoolFS :=
  let fd := listAppendCap cap (load_failed_data fs) e
  if dirNonempty && !fs.dirExists then
    if mkdirOk then { fs with dirExists := true }
    else { fs with fallback := some fd }
  else { fs with primary := some fd }

/-- Iterated persist: one `save_failed_data` call per batch, in order, with
the directory-name non-empty (the default `FAILED_DATA_FILE` lives under
`/var/log`) and `makedirs` succeeding. -/
def persistAll (cap : Nat) (fs : SpoolFS) : List SpoolEntry → SpoolFS
  | [] => fs
  | e :: es => persistAll cap (save_failed_data cap true true fs e) es

/-- The `for idx, entry in enumerate(failed_data)` loop of
`retry_failed_data` (lines 344-392). Arguments: the unprocessed suffix and
the two counters. Result: final `(success_count, fail_count)` and, when the
loop broke on a failure, the suffix `failed_data[idx:]` it re-persisted.
Entries with an empty `points_data` are skipped by the `continue` at
line 348. -/
def drainLoop (send : List Point → Bool) :
    List SpoolEntry → Nat → Nat → Nat × Nat × Option (List SpoolEntry)
  | [], s, f => (s, f, none)
  | e :: rest, s, f =>
    if e.points_data.isEmpty then drainLoop send rest s f
    else if send e.points_data then drainLoop send rest (s + 1) f
    else (s, f + 1, some (e :: rest))

/-- `retry_failed_data` (lines 330-401) over the durable store viewed as a
list: load; return `(0, 0)` untouched if empty; run the loop; on a break
the store is the re-persisted suffix; afterwards, if no failure occurred
and at least one entry was sent, the store is cleared. Returns the counts
and the final store contents. -/
def retry_failed_data (send : List Point → Bool) (store : List SpoolEntry) :
    (Nat × Nat) × List SpoolEntry :=
  if store.isEmpty then ((0, 0), store)
  else
    let r := drainLoop send store 0 0
    let store1 := (r.2.2).getD store
    if r.2.1 = 0 ∧ 0 < r.1 then ((r.1, r.2.1), [])
    else ((r.1, r.2.1), store1)

lemma drainLoop_all_ok (send : List Point → Bool) :
    ∀ (l : List SpoolEntry) (s f : Nat),
      (∀ e ∈ l, e.points_data ≠ []) →
      (∀ e ∈ l, send e.points_data = true) →
      drainLoop send l s f = (s + l.length, f, none) := by
  intro l
  induction l with
  | nil => intro s f _ _; simp [drainLoop]
  | cons e rest ih =>
    intro s f hne hok
    have hne1 : e.points_data.isEmpty = false := by
      simpa using hne e (List.mem_cons_self e rest)
    rw [drainLoop, hne1]
    simp only [Bool.false_eq_true, if_false, hok e (List.mem_cons_self e rest), if_true]
    rw [ih (s + 1) f (fun x hx => hne x (List.mem_cons_of_mem e hx))
      (fun x hx => hok x (List.mem_cons_of_mem e hx))]
    simp only [List.length_cons]
    have hadd : s + 1 + rest.length = s + (rest.length + 1) := by omega
    rw [hadd]

lemma drainLoop_first_fail (send : List Point → Bool) :
    ∀ (good : List SpoolEntry) (bad : SpoolEntry) (rest : List SpoolEntry)
      (s f : Nat),
      (∀ e ∈ good, e.points_data ≠ []) →
      (∀ e ∈ good, send e.points_data = true) →
      bad.points_data ≠ [] →
      send bad.points_data = false →
      drainLoop send (good ++ bad :: rest) s f
        = (s + good.length, f + 1, some (bad :: rest)) := by
  intro good
  induction good with
  | nil =>
    intro bad rest s f _ _ hbne hbad
    have hbne1 : bad.points_data.isEmpty = false := by simpa using hbne
    simp [drainLoop, hbne1, hbad]
  | cons e g ih =>
    intro bad rest s f hne hok hbne hbad
    have hne1 : e.points_data.isEmpty = false := by
      simpa using hne e (List.mem_cons_self e g)
    rw [List.cons_append, drainLoop, hne1]
    simp only [Bool.false_eq_true, if_false, hok e (List.mem_cons_self e g), if_true]
    rw [ih bad rest (s + 1) f (fun x hx => hne x (List.mem_cons_of_mem e hx))
      (fun x hx => hok x (List.mem_cons_of_mem e hx)) hbne hbad]
    simp only [List.length_cons]
    have hadd : s + 1 + g.length = s + (g.length + 1) := by omega
    rw [hadd]

lemma dropWhile_head_false (p : SpoolEntry → Bool) :
    ∀ (l : List SpoolEntry), l.dropWhile p ≠ [] →
      ∃ b t, l.dropWhile p = b :: t ∧ p b = false := by
  intro l
  induction l with
  | nil => intro h; simp [List.dropWhile] at h
  | cons a l ih =>
    intro h
    by_cases hp : p a = true
    · rw [List.dropWhile_cons, if_pos hp] at h ⊢
      exact ih h
    · rw [Bool.not_eq_true] at hp
      rw [List.dropWhile_cons, if_neg (by simp [hp])]
      exact ⟨a, l, rfl, hp⟩

/-- Characterisation of `retry_failed_data` on a store whose entries all
have a non-empty batch, split by whether some entry fails to send. -/
lemma retry_failed_data_cases (send : List Point → Bool) (store : List SpoolEntry)
    (hne : ∀ e ∈ store, e.points_data ≠ []) :
    (store.dropWhile (fun e => send e.points_data) = [] → store ≠ [] →
      retry_failed_data send store = ((store.length, 0), [])) ∧
    (store.dropWhile (fun e => send e.points_data) ≠ [] →
      retry_failed_data send store
        = (((store.takeWhile (fun e => send e.points_data)).length, 1),
            store.dropWhile (fun e => send e.points_data))) := by
  constructor
  · intro hdw hnil
    have hall : ∀ e ∈ store, send e.points_data = true := by
      intro e he
      have hsplit : store.takeWhile (fun e => send e.points_data)
          ++ store.dropWhile (fun e => send e.points_data) = store :=
        List.takeWhile_append_dropWhile (fun e => send e.points_data) store
      rw [hdw, List.append_nil] at hsplit
      rw [← hsplit] at he
      have h1 := @List.mem_takeWhile_imp _ (fun e => send e.points_data) store e he
      simpa using h1
    have hloop := drainLoop_all_ok send store 0 0 hne hall
    have hlen : 0 < store.length := List.length_pos.mpr hnil
    simp [retry_failed_data, List.isEmpty_iff, hnil, hloop, hlen]
  · intro hdw
    obtain ⟨bad, rest, heq, hbad⟩ := dropWhile_head_false _ store hdw
    have hsplit : store.takeWhile (fun e => send e.points_data)
        ++ store.dropWhile (fun e => send e.points_data) = store :=
      List.takeWhile_append_dropWhile (fun e => send e.points_data) store
    set tw := store.takeWhile (fun e => send e.points_data) with htw
    have hmem_store : ∀ e, e ∈ tw ∨ e ∈ bad :: rest → e ∈ store := by
      intro e he
      rw [← hsplit, heq]
      rcases he with he | he
      · exact List.mem_append_left _ he
      · exact List.mem_append_right _ he
    have hgood_ok : ∀ e ∈ tw, send e.points_data = true := by
      intro e he
      have h1 := @List.mem_takeWhile_imp _ (fun e => send e.points_data) store e (htw ▸ he)
      simpa using h1
    have hgood_ne : ∀ e ∈ tw, e.points_data ≠ [] := by
      intro e he; exact hne e (hmem_store e (Or.inl he))
    have hbad_ne : bad.points_data ≠ [] :=
      hne bad (hmem_store bad (Or.inr (List.mem_cons_self bad rest)))
    have hstore : store = tw ++ bad :: rest := by rw [← heq, hsplit]
    have hnil : store ≠ [] := by
      intro h
      rw [h] at hdw
      simp [List.dropWhile] at hdw
    have hloop := drainLoop_first_fail send tw bad rest 0 0 hgood_ne hgood_ok
      hbad_ne hbad
    conv at hloop => rw [← hstore]
    rw [show store.dropWhile (fun e => send e.points_data) = bad :: rest from heq]
    simp [retry_failed_data, List.isEmpty_iff, hnil, hloop]

/-- Every entry the program itself persists carries a non-empty batch: the
main loop calls `save_failed_data` only under `if points_data` (lines
571-588), and the capacity truncation only drops entries. This justifies
the non-empty-batch hypothesis of the drain theorems below. -/
lemma persist_preserves_nonempty (cap : Nat) (l : List SpoolEntry)
    (e : SpoolEntry) (hl : ∀ x ∈ l, x.points_data ≠ [])
    (he : e.points_data ≠ []) :
    ∀ x ∈ listAppendCap cap l e, x.points_data ≠ [] := by
  intro x hx
  have hd : listAppendCap cap l e
      = if cap < (l ++ [e]).length then
          (if cap = 0 then l ++ [e] else (l ++ [e]).drop ((l ++ [e]).length - cap))
        else l ++ [e] := rfl
  rw [hd] at hx
  have hmem : x ∈ l ++ [e] := by
    by_cases h1 : cap < (l ++ [e]).length
    · rw [if_pos h1] at hx
      by_cases h2 : cap = 0
      · rwa [if_pos h2] at hx
      · rw [if_neg h2] at hx
        exact List.mem_of_mem_drop hx
    · rwa [if_neg h1] at hx
  rcases List.mem_append.mp hmem with h | h
  · exact hl x h
  · rw [List.mem_singleton] at h
    rw [h]
    exact he

/-- C1: on a stored spool list (whose entries, as the program persists them,
always carry a non-empty batch), `retry_failed_data` iterates entries in
insertion order calling the send function on each; on the first send
failure it stops and re-persists exactly the remaining unsent suffix — the
failed entry and all entries after it, in their original order
(`List.dropWhile` of the successfully sent prefix); if every entry sends
successfully it clears the store entirely; draining an empty spool returns
`(0, 0)`. -/
theorem retry_failed_data_drain_spec (send : List Point → Bool)
    (store : List SpoolEntry) (hne : ∀ e ∈ store, e.points_data ≠ []) :
    (retry_failed_data send [] = ((0, 0), [])) ∧
    ((∀ e ∈ store, send e.points_data = true) →
      retry_failed_data send store = ((store.length, 0), [])) ∧
    (store.dropWhile (fun e => send e.points_data) ≠ [] →
      retry_failed_data send store
        = (((store.takeWhile (fun e => send e.points_data)).length, 1),
            store.dropWhile (fun e => send e.points_data))) := by
  obtain ⟨hok, hfail⟩ := retry_failed_data_cases send store hne
  refine ⟨by simp [retry_failed_data], ?_, hfail⟩
  intro hall
  rcases eq_or_ne store [] with rfl | hnil
  · simp [retry_failed_data]
  · refine hok ?_ hnil
    rw [List.dropWhile_eq_nil_iff]
    intro e he
    simp [hall e he]

/-- Witness for C1 at a concrete store: two one-batch entries, a send
function accepting only singleton batches, so the second entry is the
first failure and exactly the suffix from it is re-persisted. -/
theorem retry_failed_data_drain_spec_witness :
    (∀ e ∈ [SpoolEntry.mk "t1" "s1" [Point.mk "temperature" "pi" "t1" 21],
            SpoolEntry.mk "t2" "s2" [Point.mk "humidity" "pi" "t2" 50,
                                     Point.mk "pressure" "pi" "t2" 1000]],
        e.points_data ≠ []) ∧
    ((retry_failed_data (fun l => decide (l.length = 1)) [] = ((0, 0), [])) ∧
     ((∀ e ∈ [SpoolEntry.mk "t1" "s1" [Point.mk "temperature" "pi" "t1" 21],
              SpoolEntry.mk "t2" "s2" [Point.mk "humidity" "pi" "t2" 50,
                                       Point.mk "pressure" "pi" "t2" 1000]],
          (fun (l : List Point) => decide (l.length = 1)) e.points_data = true) →
        retry_failed_data (fun l => decide (l.length = 1))
          [SpoolEntry.mk "t1" "s1" [Point.mk "temperature" "pi" "t1" 21],
           SpoolEntry.mk "t2" "s2" [Point.mk "humidity" "pi" "t2" 50,
                                    Point.mk "pressure" "pi" "t2" 1000]]
          = (([SpoolEntry.mk "t1" "s1" [Point.mk "temperature" "pi" "t1" 21],
              SpoolEntry.mk "t2" "s2" [Point.mk "humidity" "pi" "t2" 50,
                                       Point.mk "pressure" "pi" "t2" 1000]].length, 0), [])) ∧
     (([SpoolEntry.mk "t1" "s1" [Point.mk "temperature" "pi" "t1" 21],
        SpoolEntry.mk "t2" "s2" [Point.mk "humidity" "pi" "t2" 50,
                                 Point.mk "pressure" "pi" "t2" 1000]].dropWhile
          (fun e => decide (e.points_data.length = 1)) ≠ []) →
      retry_failed_data (fun l => decide (l.length = 1))
        [SpoolEntry.mk "t1" "s1" [Point.mk "temperature" "pi" "t1" 21],
         SpoolEntry.mk "t2" "s2" [Point.mk "humidity" "pi" "t2" 50,
                                  Point.mk "pressure" "pi" "t2" 1000]]
        = ((([SpoolEntry.mk "t1" "s1" [Point.mk "temperature" "pi" "t1" 21],
             SpoolEntry.mk "t2" "s2" [Point.mk "humidity" "pi" "t2" 50,
                                      Point.mk "pressure" "pi" "t2" 1000]].takeWhile
               (fun e => decide (e.points_data.length = 1))).length, 1),
            [SpoolEntry.mk "t1" "s1" [Point.mk "temperature" "pi" "t1" 21],
             SpoolEntry.mk "t2" "s2" [Point.mk "humidity" "pi" "t2" 50,
                                      Point.mk "pressure" "pi" "t2" 1000]].dropWhile
              (fun e => decide (e.points_data.length = 1))))) :=
  ⟨by decide,
   retry_failed_data_drain_spec (fun l => decide (l.length = 1))
     [SpoolEntry.mk "t1" "s1" [Point.mk "temperature" "pi" "t1" 21],
      SpoolEntry.mk "t2" "s2" [Point.mk "humidity" "pi" "t2" 50,
                               Point.mk "pressure" "pi" "t2" 1000]]
     (by decide)⟩

/-- C3: apart from oldest-first eviction at the capacity cap, a spool entry
is removed only after a confirmed successful re-delivery of that specific
entry, and redelivery proceeds in strict arrival order: the store after
`retry_failed_data` is a suffix of the original store, every removed entry
(the complementary prefix) was sent successfully, on a re-delivery failure
the whole suffix from the first failure is preserved, and the capacity
eviction of `save_failed_data` only ever drops entries from the front. -/
theorem spool_entry_removal_invariant (send : List Point → Bool)
    (store : List SpoolEntry) (cap : Nat) (l : List SpoolEntry) (e : SpoolEntry)
    (hne : ∀ x ∈ store, x.points_data ≠ []) :
    (∃ sent, sent ++ (retry_failed_data send store).2 = store ∧
      ∀ x ∈ sent, send x.points_data = true) ∧
    (store.dropWhile (fun x => send x.points_data) ≠ [] →
      (retry_failed_data send store).2
        = store.dropWhile (fun x => send x.points_data)) ∧
    (∃ k, listAppendCap cap l e = (l ++ [e]).drop k) := by
  obtain ⟨hok, hfail⟩ := retry_failed_data_cases send store hne
  refine ⟨?_, ?_, ?_⟩
  · by_cases hdw : store.dropWhile (fun x => send x.points_data) = []
    · rcases eq_or_ne store [] with rfl | hnil
      · exact ⟨[], by simp [retry_failed_data], by simp⟩
      · refine ⟨store, ?_, ?_⟩
        · rw [hok hdw hnil]; simp
        · intro x hx
          have hsplit : store.takeWhile (fun x => send x.points_data)
              ++ store.dropWhile (fun x => send x.points_data) = store :=
            List.takeWhile_append_dropWhile (fun x => send x.points_data) store
          rw [hdw, List.append_nil] at hsplit
          rw [← hsplit] at hx
          have h1 := @List.mem_takeWhile_imp _ (fun x => send x.points_data) store x hx
          simpa using h1
    · refine ⟨store.takeWhile (fun x => send x.points_data), ?_, ?_⟩
      · rw [hfail hdw]
        exact List.takeWhile_append_dropWhile (fun x => send x.points_data) store
      · intro x hx
        have h1 := @List.mem_takeWhile_imp _ (fun x => send x.points_data) store x hx
        simpa using h1
  · intro hdw
    rw [hfail hdw]
  · have hd : listAppendCap cap l e
        = if cap < (l ++ [e]).length then
            (if cap = 0 then l ++ [e] else (l ++ [e]).drop ((l ++ [e]).length - cap))
          else l ++ [e] := rfl
    rw [hd]
    by_cases h1 : cap < (l ++ [e]).length
    · by_cases h2 : cap = 0
      · exact ⟨0, by rw [if_pos h1, if_pos h2, List.drop_zero]⟩
      · exact ⟨(l ++ [e]).length - cap, by rw [if_pos h1, if_neg h2]⟩
    · exact ⟨0, by rw [if_neg h1, List.drop_zero]⟩

/-- Witness for C3 at a concrete store where the first entry fails to send:
nothing is removed and the capacity-eviction decomposition holds. -/
theorem spool_entry_removal_invariant_witness :
    (∀ x ∈ [SpoolEntry.mk "u1" "v1" [Point.mk "lux" "pi" "u1" 5]],
        x.points_data ≠ []) ∧
    ((∃ sent, sent ++ (retry_failed_data (fun _ => false)
        [SpoolEntry.mk "u1" "v1" [Point.mk "lux" "pi" "u1" 5]]).2
        = [SpoolEntry.mk "u1" "v1" [Point.mk "lux" "pi" "u1" 5]] ∧
      ∀ x ∈ sent, (fun (_ : List Point) => false) x.points_data = true) ∧
    (([SpoolEntry.mk "u1" "v1" [Point.mk "lux" "pi" "u1" 5]].dropWhile
        (fun _ => false) ≠ []) →
      (retry_failed_data (fun _ => false)
        [SpoolEntry.mk "u1" "v1" [Point.mk "lux" "pi" "u1" 5]]).2
        = [SpoolEntry.mk "u1" "v1" [Point.mk "lux" "pi" "u1" 5]].dropWhile
            (fun _ => false)) ∧
    (∃ k, listAppendCap 2 [SpoolEntry.mk "u0" "v0" []]
        (SpoolEntry.mk "u1" "v1" [Point.mk "lux" "pi" "u1" 5])
        = ([SpoolEntry.mk "u0" "v0" []]
            ++ [SpoolEntry.mk "u1" "v1" [Point.mk "lux" "pi" "u1" 5]]).drop k)) :=
  ⟨by decide,
   spool_entry_removal_invariant (fun _ => false)
     [SpoolEntry.mk "u1" "v1" [Point.mk "lux" "pi" "u1" 5]] 2
     [SpoolEntry.mk "u0" "v0" []]
     (SpoolEntry.mk "u1" "v1" [Point.mk "lux" "pi" "u1" 5]) (by decide)⟩

/-! ### Capacity bound of the spool (`save_failed_data`, lines 258-262) -/

/-- The last `cap` elements of a list (all of it when it is shorter). -/
def lastCap (cap : Nat) (l : List SpoolEntry) : List SpoolEntry :=
  l.drop (l.length - cap)

lemma listAppendCap_eq_lastCap (cap : Nat) (hcap : 1 ≤ cap)
    (l : List SpoolEntry) (e : SpoolEntry) :
    listAppendCap cap l e = lastCap cap (l ++ [e]) := by
  unfold listAppendCap lastCap
  by_cases h1 : cap < (l ++ [e]).length
  · rw [if_pos h1, if_neg (by omega)]
  · rw [if_neg h1]
    have : (l ++ [e]).length - cap = 0 := by omega
    rw [this, List.drop_zero]

lemma lastCap_length (cap : Nat) (l : List SpoolEntry) :
    (lastCap cap l).length = min l.length cap := by
  unfold lastCap
  rw [List.length_drop]
  omega

lemma lastCap_absorb (cap : Nat) (hcap : 1 ≤ cap) (x y : List SpoolEntry) :
    lastCap cap (lastCap cap x ++ y) = lastCap cap (x ++ y) := by
  by_cases hx : x.length ≤ cap
  · have : lastCap cap x = x := by
      unfold lastCap
      have : x.length - cap = 0 := by omega
      rw [this, List.drop_zero]
    rw [this]
  · push_neg at hx
    unfold lastCap
    rw [List.drop_append_eq_append_drop, List.drop_append_eq_append_drop,
      List.drop_drop]
    simp only [List.length_append, List.length_drop]
    have e1 : x.length - cap + (x.length - (x.length - cap) + y.length - cap)
        = x.length + y.length - cap := by omega
    have e2 : x.length - (x.length - cap) + y.length - cap
          - (x.length - (x.length - cap))
        = x.length + y.length - cap - x.length := by omega
    rw [e1, e2]

lemma foldl_listAppendCap (cap : Nat) (hcap : 1 ≤ cap) :
    ∀ (es l : List SpoolEntry), l.length ≤ cap →
      List.foldl (listAppendCap cap) l es = lastCap cap (l ++ es) := by
  intro es
  induction es with
  | nil =>
    intro l hl
    rw [List.foldl_nil]
    unfold lastCap
    rw [List.append_nil]
    have h1 : l.length - cap = 0 := by omega
    rw [h1, List.drop_zero]
  | cons e es ih =>
    intro l hl
    rw [List.foldl_cons, listAppendCap_eq_lastCap cap hcap l e,
      ih (lastCap cap (l ++ [e])) (by rw [lastCap_length]; omega),
      lastCap_absorb cap hcap, List.append_assoc, List.singleton_append]

lemma save_failed_data_dir_ok (cap : Nat) (fs : SpoolFS) (e : SpoolEntry)
    (hdir : fs.dirExists = true) :
    save_failed_data cap true true fs e
      = { fs with primary := some (listAppendCap cap (load_failed_data fs) e) } := by
  unfold save_failed_data
  rw [hdir]
  simp

lemma persistAll_load (cap : Nat) :
    ∀ (es : List SpoolEntry) (fs : SpoolFS) (l : List SpoolEntry),
      fs.dirExists = true → fs.primary = some l →
      (persistAll cap fs es).dirExists = true ∧
      (persistAll cap fs es).primary
        = some (List.foldl (listAppendCap cap) l es) := by
  intro es
  induction es with
  | nil =>
    intro fs l hdir hp
    exact ⟨hdir, by simpa using hp⟩
  | cons e es ih =>
    intro fs l hdir hp
    rw [persistAll, save_failed_data_dir_ok cap fs e hdir]
    have hload : load_failed_data fs = l := by
      unfold load_failed_data
      rw [hp]
    rw [hload]
    exact ih _ (listAppendCap cap l e) hdir rfl

/-- C2 (amended to a positive cap): starting from an empty durable store,
after persisting the batches `es` one at a time with `cap < es.length`, the
store holds exactly `cap` entries, namely the most recent `cap` ones
(oldest evicted first), and after every prefix of the persists the store
never holds more than `cap` entries. -/
theorem save_failed_data_cap_spec (cap : Nat) (hcap : 1 ≤ cap) (fs0 : SpoolFS)
    (hdir : fs0.dirExists = true) (hp : fs0.primary = some [])
    (es : List SpoolEntry) (hlen : cap < es.length) :
    load_failed_data (persistAll cap fs0 es) = es.drop (es.length - cap) ∧
    (load_failed_data (persistAll cap fs0 es)).length = cap ∧
    (∀ k, (load_failed_data (persistAll cap fs0 (es.take k))).length ≤ cap) := by
  have hmain : ∀ es1 : List SpoolEntry,
      load_failed_data (persistAll cap fs0 es1) = lastCap cap es1 := by
    intro es1
    obtain ⟨hd, hpr⟩ := persistAll_load cap es1 fs0 [] hdir hp
    unfold load_failed_data
    rw [hpr, foldl_listAppendCap cap hcap es1 [] (by simp), List.nil_append]
  refine ⟨?_, ?_, ?_⟩
  · rw [hmain es]; rfl
  · rw [hmain es, lastCap_length]; omega
  · intro k
    rw [hmain (es.take k), lastCap_length]
    omega

/-- Witness for C2 at cap 1 and two persisted batches. -/
theorem save_failed_data_cap_spec_witness :
    (1 ≤ 1 ∧ (SpoolFS.mk (some []) none true).dirExists = true ∧
      (SpoolFS.mk (some []) none true).primary = some [] ∧
      1 < [SpoolEntry.mk "w1" "x1" [], SpoolEntry.mk "w2" "x2" []].length) ∧
    (load_failed_data (persistAll 1 (SpoolFS.mk (some []) none true)
        [SpoolEntry.mk "w1" "x1" [], SpoolEntry.mk "w2" "x2" []])
      = [SpoolEntry.mk "w1" "x1" [], SpoolEntry.mk "w2" "x2" []].drop
          ([SpoolEntry.mk "w1" "x1" [], SpoolEntry.mk "w2" "x2" []].length - 1) ∧
     (load_failed_data (persistAll 1 (SpoolFS.mk (some []) none true)
        [SpoolEntry.mk "w1" "x1" [], SpoolEntry.mk "w2" "x2" []])).length = 1 ∧
     (∀ k, (load_failed_data (persistAll 1 (SpoolFS.mk (some []) none true)
        ([SpoolEntry.mk "w1" "x1" [], SpoolEntry.mk "w2" "x2" []].take k))).length
          ≤ 1)) :=
  ⟨⟨le_refl 1, rfl, rfl, by decide⟩,
   save_failed_data_cap_spec 1 (le_refl 1) (SpoolFS.mk (some []) none true)
     rfl rfl [SpoolEntry.mk "w1" "x1" [], SpoolEntry.mk "w2" "x2" []] (by decide)⟩

/-- Counterexample to C2 as stated: with the cap configured to 0, the Python
truncation `failed_data[-0:]` keeps the whole list, so after one persist
(N = 1 > cap = 0) the store holds one entry, exceeding the cap. -/
theorem save_failed_data_cap_zero_counterexample :
    0 < (load_failed_data (persistAll 0 (SpoolFS.mk (some []) none true)
        [SpoolEntry.mk "w1" "x1" []])).length := by
  decide

/-- C9: when the spool file's parent directory does not exist and creating
it succeeds, `save_failed_data` writes nothing to any file — the local
`failed_file` is only assigned in the `except` branch or in the `else`
branch, so the `open` raises and the enclosing handler swallows it: both
file contents are unchanged (only the directory now exists), the loaded
store is unchanged, and the call returns normally. -/
theorem save_failed_data_dir_bug (cap : Nat) (fs : SpoolFS) (e : SpoolEntry)
    (hdir : fs.dirExists = false) :
    save_failed_data cap true true fs e = { fs with dirExists := true } ∧
    (save_failed_data cap true true fs e).primary = fs.primary ∧
    (save_failed_data cap true true fs e).fallback = fs.fallback ∧
    load_failed_data (save_failed_data cap true true fs e)
      = load_failed_data fs := by
  have h : save_failed_data cap true true fs e = { fs with dirExists := true } := by
    unfold save_failed_data
    rw [hdir]
    simp
  refine ⟨h, by rw [h], by rw [h], ?_⟩
  rw [h]
  unfold load_failed_data
  rfl

/-- Witness for C9: a missing `/var/log` with an absent spool file; nothing
is written and the load is unchanged. -/
theorem save_failed_data_dir_bug_witness :
    ((SpoolFS.mk none none false).dirExists = false) ∧
    (save_failed_data 1000 true true (SpoolFS.mk none none false)
        (SpoolEntry.mk "t9" "s9" [Point.mk "pm1" "pi" "t9" 3])
      = { SpoolFS.mk none none false with dirExists := true } ∧
     (save_failed_data 1000 true true (SpoolFS.mk none none false)
        (SpoolEntry.mk "t9" "s9" [Point.mk "pm1" "pi" "t9" 3])).primary
      = (SpoolFS.mk none none false).primary ∧
     (save_failed_data 1000 true true (SpoolFS.mk none none false)
        (SpoolEntry.mk "t9" "s9" [Point.mk "pm1" "pi" "t9" 3])).fallback
      = (SpoolFS.mk none none false).fallback ∧
     load_failed_data (save_failed_data 1000 true true (SpoolFS.mk none none false)
        (SpoolEntry.mk "t9" "s9" [Point.mk "pm1" "pi" "t9" 3]))
      = load_failed_data (SpoolFS.mk none none false)) :=
  ⟨rfl,
   save_failed_data_dir_bug 1000 (SpoolFS.mk none none false)
     (SpoolEntry.mk "t9" "s9" [Point.mk "pm1" "pi" "t9" 3]) rfl⟩

/-! ## Delivery retry (`send_with_retry`, lines 185-242)

Wall-clock time is modelled as an explicit rational clock starting at the
`start_time = time.time()` of line 187: every blocking call advances it by
an environment-supplied duration, and `time.sleep(s)` advances it by `s`.
The environment determines, per attempt index, whether
`send_to_influxdb` reports success and whether `create_influxdb_client`
returns a client (`send_to_influxdb` itself never raises: its body is
wrapped in a broad handler returning `False`, which also covers the
`client is None` case). The state records, for claims about this loop,
the number of send attempts, each sleep performed — as the pair (remaining
deadline budget at that moment if a deadline is set, amount slept) — the
number of successful connection creations (Disconnected-to-Connected
transitions) and the number of `retry_failed_data` invocations, which is
never incremented because `send_with_retry` contains no such call. -/

structure RetryEnv where
  sendOk : Nat → Bool
  sendDur : Nat → ℚ
  connOk : Nat → Bool
  connDur : Nat → ℚ
  initConnOk : Bool
  initConnDur : ℚ

structure RetryState where
  now : ℚ
  attempts : Nat
  sleeps : List (Option ℚ × ℚ)
  hasClient : Bool
  conns : Nat
  drains : Nat
deriving DecidableEq

/-- The backoff of lines 208-216 / 229-237: with a deadline, sleep the fixed
backoff if more than it remains, else the positive remainder, else nothing;
without a deadline always sleep the fixed backoff. -/
def sleepStep (rd : ℚ) (mt : Option ℚ) (st : RetryState) : RetryState :=
  match mt with
  | some m =>
    let remaining := m - st.now
    if rd < remaining then
      { st with now := st.now + rd, sleeps := st.sleeps ++ [(some remaining, rd)] }
    else if 0 < remaining then
      { st with now := st.now + remaining,
                sleeps := st.sleeps ++ [(some remaining, remaining)] }
    else st
  | none => { st with now := st.now + rd, sleeps := st.sleeps ++ [(none, rd)] }

/-- `client = create_influxdb_client()` between attempts (line 219 / 238):
consumes time, sets the client presence, counts a successful creation. -/
def connStep (env : RetryEnv) (k : Nat) (st : RetryState) : RetryState :=
  { st with now := st.now + env.connDur k,
            hasClient := env.connOk k,
            conns := st.conns + (if env.connOk k then 1 else 0) }

/-- The `for attempt in range(MAX_RETRIES)` loop of lines 195-241, with
`fuel` the number of iterations left (`fuel = 0` means the range is
exhausted, returning `False` with the current client, line 242). At each
iteration: the deadline check of lines 196-200; one `send_to_influxdb`
attempt, which succeeds iff a client is present and the environment says
so; on failure the client is dropped, and if this was the last attempt the
loop returns `(False, None)` (line 224), otherwise it backs off, reconnects
and continues. -/
def swrLoop (rd : ℚ) (mt : Option ℚ) (env : RetryEnv) :
    Nat → RetryState → Bool × RetryState
  | 0, st => (false, st)
  | fuel + 1, st =>
    if mt.elim false (fun m => decide (m ≤ st.now)) then (false, st)
    else
      let k := st.attempts
      let stA := { st with now := st.now + env.sendDur k, attempts := k + 1 }
      if st.hasClient && env.sendOk k then (true, stA)
      else
        let stB := { stA with hasClient := false }
        if fuel = 0 then (false, stB)
        else swrLoop rd mt env fuel (connStep env k (sleepStep rd mt stB))

/-- `send_with_retry(client, points_data, max_time)` (lines 185-242):
`start_time` is recorded first; if no client is passed, one initial
`create_influxdb_client()` is attempted (lines 189-193), returning failure
at once if it yields `None`; then the retry loop runs. -/
def send_with_retry (mr : Nat) (rd : ℚ) (mt : Option ℚ) (env : RetryEnv)
    (clientInit : Bool) : Bool × RetryState :=
  let st0 : RetryState := ⟨0, 0, [], clientInit, 0, 0⟩
  if clientInit then
    swrLoop rd mt env mr st0
  else
    let st1 : RetryState :=
      { st0 with now := env.initConnDur, hasClient := env.initConnOk,
                 conns := if env.initConnOk then 1 else 0 }
    if env.initConnOk then swrLoop rd mt env mr st1 else (false, st1)

lemma sleepStep_attempts (rd : ℚ) (mt : Option ℚ) (st : RetryState) :
    (sleepStep rd mt st).attempts = st.attempts := by
  unfold sleepStep
  cases mt with
  | none => rfl
  | some m =>
    by_cases h1 : rd < m - st.now
    · simp [h1]
    · by_cases h2 : 0 < m - st.now <;> simp [h1, h2]

lemma sleepStep_drains (rd : ℚ) (mt : Option ℚ) (st : RetryState) :
    (sleepStep rd mt st).drains = st.drains := by
  unfold sleepStep
  cases mt with
  | none => rfl
  | some m =>
    by_cases h1 : rd < m - st.now
    · simp [h1]
    · by_cases h2 : 0 < m - st.now <;> simp [h1, h2]

lemma sleepStep_sleeps_spec (rd m : ℚ) (hrd : 0 ≤ rd) (st : RetryState) :
    ∀ p ∈ (sleepStep rd (some m) st).sleeps,
      p ∈ st.sleeps ∨
        ∃ rem, p.1 = some rem ∧ 0 < rem ∧ p.2 = min rd rem := by
  intro p hp
  unfold sleepStep at hp
  by_cases h1 : rd < m - st.now
  · simp only [h1, if_true, List.mem_append, List.mem_singleton] at hp
    rcases hp with hp | rfl
    · exact Or.inl hp
    · exact Or.inr ⟨m - st.now, rfl, by linarith, (min_eq_left (le_of_lt h1)).symm⟩
  · by_cases h2 : 0 < m - st.now
    · simp only [h1, if_false, h2, if_true, List.mem_append,
        List.mem_singleton] at hp
      rcases hp with hp | rfl
      · exact Or.inl hp
      · push_neg at h1
        exact Or.inr ⟨m - st.now, rfl, h2, (min_eq_right h1).symm⟩
    · simp only [h1, if_false, h2] at hp
      exact Or.inl hp

lemma swrLoop_attempts_le (rd : ℚ) (mt : Option ℚ) (env : RetryEnv) :
    ∀ (fuel : Nat) (st : RetryState),
      ((swrLoop rd mt env fuel st).2).attempts ≤ st.attempts + fuel := by
  intro fuel
  induction fuel with
  | zero => intro st; simp [swrLoop]
  | succ fuel ih =>
    intro st
    rw [swrLoop]
    split
    · show st.attempts ≤ st.attempts + (fuel + 1)
      omega
    · dsimp only
      by_cases hok : (st.hasClient && env.sendOk st.attempts) = true
      · rw [if_pos hok]
        show st.attempts + 1 ≤ st.attempts + (fuel + 1)
        omega
      · rw [if_neg hok]
        split
        · show st.attempts + 1 ≤ st.attempts + (fuel + 1)
          omega
        · have h := ih (connStep env st.attempts
            (sleepStep rd mt { st with
              now := st.now + env.sendDur st.attempts,
              attempts := st.attempts + 1, hasClient := false }))
          have ha : (connStep env st.attempts
              (sleepStep rd mt { st with
                now := st.now + env.sendDur st.attempts,
                attempts := st.attempts + 1, hasClient := false })).attempts
              = st.attempts + 1 :=
            sleepStep_attempts rd mt _
          rw [ha] at h
          exact le_trans h (by omega)

lemma swrLoop_sleeps_inv (rd m : ℚ) (hrd : 0 ≤ rd) (env : RetryEnv) :
    ∀ (fuel : Nat) (st : RetryState),
      (∀ p ∈ st.sleeps, ∃ rem, p.1 = some rem ∧ 0 < rem ∧ p.2 = min rd rem) →
      ∀ p ∈ ((swrLoop rd (some m) env fuel st).2).sleeps,
        ∃ rem, p.1 = some rem ∧ 0 < rem ∧ p.2 = min rd rem := by
  intro fuel
  induction fuel with
  | zero => intro st hst; simpa [swrLoop] using hst
  | succ fuel ih =>
    intro st hst
    rw [swrLoop]
    split
    · exact hst
    · dsimp only
      by_cases hok : (st.hasClient && env.sendOk st.attempts) = true
      · rw [if_pos hok]
        exact hst
      · rw [if_neg hok]
        split
        · exact hst
        · refine ih _ ?_
          intro p hp
          rcases sleepStep_sleeps_spec rd m hrd
            { st with now := st.now + env.sendDur st.attempts,
                      attempts := st.attempts + 1, hasClient := false } p hp
            with hin | hnew
          · exact hst p hin
          · exact hnew

lemma swrLoop_drains (rd : ℚ) (mt : Option ℚ) (env : RetryEnv) :
    ∀ (fuel : Nat) (st : RetryState),
      ((swrLoop rd mt env fuel st).2).drains = st.drains := by
  intro fuel
  induction fuel with
  | zero => intro st; simp [swrLoop]
  | succ fuel ih =>
    intro st
    rw [swrLoop]
    split
    · rfl
    · dsimp only
      by_cases hok : (st.hasClient && env.sendOk st.attempts) = true
      · rw [if_pos hok]
      · rw [if_neg hok]
        split
        · rfl
        · rw [ih]
          exact sleepStep_drains rd mt _

lemma swrLoop_deadline_hit (rd m : ℚ) (env : RetryEnv) (fuel : Nat)
    (st : RetryState) (h : m ≤ st.now) :
    swrLoop rd (some m) env (fuel + 1) st = (false, st) := by
  rw [swrLoop]
  have : (some m).elim false (fun v => decide (v ≤ st.now)) = true := by
    simpa using h
  rw [if_pos this]

/-- C5: with a deadline `m` set and a non-negative fixed backoff `rd`,
`send_with_retry` makes at most `mr` (`MAX_RETRIES`) delivery attempts;
every backoff sleep between attempts is `min rd remaining` for the
positive remaining deadline budget at that moment — so it never exceeds
the budget, and when the remainder is below the fixed backoff only the
remainder is slept; and whenever the remaining time is ≤ 0 at the start of
an attempt (the deadline `m` has been reached), the loop returns failure
immediately, making no further attempt, sleep, or state change. -/
theorem send_with_retry_spec (mr : Nat) (rd m : ℚ) (env : RetryEnv)
    (ci : Bool) (hrd : 0 ≤ rd) :
    ((send_with_retry mr rd (some m) env ci).2).attempts ≤ mr ∧
    (∀ p ∈ ((send_with_retry mr rd (some m) env ci).2).sleeps,
      ∃ rem, p.1 = some rem ∧ 0 < rem ∧ p.2 = min rd rem) ∧
    (∀ (fuel : Nat) (st : RetryState), m ≤ st.now →
      swrLoop rd (some m) env (fuel + 1) st = (false, st)) := by
  refine ⟨?_, ?_, fun fuel st h => swrLoop_deadline_hit rd m env fuel st h⟩
  · unfold send_with_retry
    split
    · have h := swrLoop_attempts_le rd (some m) env mr ⟨0, 0, [], ci, 0, 0⟩
      simpa using h
    · split
      · have h := swrLoop_attempts_le rd (some m) env mr
          ⟨env.initConnDur, 0, [], env.initConnOk, 1, 0⟩
        simpa using h
      · exact Nat.zero_le mr
  · unfold send_with_retry
    split
    · refine swrLoop_sleeps_inv rd m hrd env mr _ ?_
      intro p hp
      exact absurd hp (List.not_mem_nil p)
    · split
      · refine swrLoop_sleeps_inv rd m hrd env mr _ ?_
        intro p hp
        exact absurd hp (List.not_mem_nil p)
      · intro p hp
        exact absurd hp (List.not_mem_nil p)

/-- Witness for C5 at `MAX_RETRIES = 3`, `RETRY_DELAY = 2`, a 10-second
budget and an environment whose sends always fail. -/
theorem send_with_retry_spec_witness :
    (0 : ℚ) ≤ 2 ∧
    (((send_with_retry 3 2 (some 10)
        (RetryEnv.mk (fun _ => false) (fun _ => 1) (fun _ => true)
          (fun _ => 1) true 1) true).2).attempts ≤ 3 ∧
     (∀ p ∈ ((send_with_retry 3 2 (some 10)
        (RetryEnv.mk (fun _ => false) (fun _ => 1) (fun _ => true)
          (fun _ => 1) true 1) true).2).sleeps,
        ∃ rem, p.1 = some rem ∧ 0 < rem ∧ p.2 = min 2 rem) ∧
     (∀ (fuel : Nat) (st : RetryState), 10 ≤ st.now →
        swrLoop 2 (some 10)
          (RetryEnv.mk (fun _ => false) (fun _ => 1) (fun _ => true)
            (fun _ => 1) true 1) (fuel + 1) st = (false, st))) :=
  ⟨by norm_num,
   send_with_retry_spec 3 2 10
     (RetryEnv.mk (fun _ => false) (fun _ => 1) (fun _ => true)
       (fun _ => 1) true 1) true (by norm_num)⟩

/-! ## Main-loop connection phase (lines 424-449)

Each cycle snapshots `was_connected = (client is not None)`, probes
reachability, and — only when reachable and no client is held — creates a
client; on success, since `was_connected` is false on this path, it calls
`retry_failed_data` (the spool drain). Reconnections performed inside
`send_with_retry` never call `retry_failed_data`. -/

structure ConnPhase where
  hasClient : Bool
  drained : Bool
deriving DecidableEq

/-- The connection/recovery phase at the top of one main-loop cycle:
`clientAtStart` is whether a client is held when the cycle begins,
`reachable` the result of `check_influxdb_reachable`, `connectOk` whether
`create_influxdb_client()` returns a client. `drained` records whether
`retry_failed_data` was invoked this cycle. -/
def mainLoopConnPhase (clientAtStart reachable connectOk : Bool) : ConnPhase :=
  let was_connected := clientAtStart
  if !reachable then ⟨false, false⟩
  else if !clientAtStart then
    if connectOk then ⟨true, !was_connected⟩
    else ⟨false, false⟩
  else ⟨clientAtStart, false⟩

/-- Counterexample to C6 as stated: `send_with_retry` invoked while
Disconnected (no client handle) performs a successful connection
establishment — a Disconnected-to-Connected transition — yet performs zero
spool drains (`retry_failed_data` is never called from inside
`send_with_retry`). -/
theorem send_with_retry_transition_without_drain :
    1 ≤ ((send_with_retry 3 2 none
        (RetryEnv.mk (fun _ => true) (fun _ => 1) (fun _ => true)
          (fun _ => 1) true 1) false).2).conns ∧
    ((send_with_retry 3 2 none
        (RetryEnv.mk (fun _ => true) (fun _ => 1) (fun _ => true)
          (fun _ => 1) true 1) false).2).drains = 0 := by
  constructor
  · rfl
  · rfl

/-- C6 (amended): the spool drain is triggered exactly on the per-cycle
reconnection path — when a cycle starts with no client, the server is
reachable, and a fresh client is created; connection establishments inside
`send_with_retry` (both the initial one and those between retry attempts)
never trigger the drain. -/
theorem conn_transition_drain_spec (clientAtStart reachable connectOk : Bool)
    (mr : Nat) (rd : ℚ) (mt : Option ℚ) (env : RetryEnv) (ci : Bool) :
    ((mainLoopConnPhase clientAtStart reachable connectOk).drained
      = (reachable && !clientAtStart && connectOk)) ∧
    ((send_with_retry mr rd mt env ci).2).drains = 0 := by
  constructor
  · cases clientAtStart <;> cases reachable <;> cases connectOk <;> rfl
  · unfold send_with_retry
    split
    · exact swrLoop_drains rd mt env mr _
    · split
      · exact swrLoop_drains rd mt env mr _
      · rfl

/-! ## Batch build (`points_data` construction, lines 488-568)

`round(x, n)` on floats is modelled as exact rounding of a rational to `n`
decimal digits with Python's round-half-to-even tie rule (binary
floating-point representation artefacts are outside the model). -/

/-- Round to the nearest integer, ties to even (Python `round`). -/
def roundHalfToEven (q : ℚ) : ℤ :=
  let f := q.floor
  let r := q - (f : ℚ)
  if r < 1/2 then f
  else if 1/2 < r then f + 1
  else if f % 2 = 0 then f else f + 1

/-- Python `round(x, 2)`. -/
def pyRound2 (q : ℚ) : ℚ := (roundHalfToEven (q * 100) : ℚ) / 100

/-- Python `round(x, 1)`. -/
def pyRound1 (q : ℚ) : ℚ := (roundHalfToEven (q * 10) : ℚ) / 10

/-- One optional single-value measurement block of the `points_data`
construction: `if v is not None: points_data.append({...})` with the value
transformed by `f` (`round(·, 2)` for temperature/humidity/pressure,
`float(·)` — the identity on the modelled rationals — for lux and
noise). -/
def optPoint (name hostTag ts : String) (f : ℚ → ℚ) (o : Option ℚ) :
    List Point :=
  match o with
  | some x => [⟨name, hostTag, ts, f x⟩]
  | none => []

/-- One optional three-value block (`pm` at lines 514-532, `gas_data` at
lines 534-552): three points appended together, values unrounded. -/
def triplePoints (n1 n2 n3 hostTag ts : String) (o : Option (ℚ × ℚ × ℚ)) :
    List Point :=
  match o with
  | some v => [⟨n1, hostTag, ts, v.1⟩, ⟨n2, hostTag, ts, v.2.1⟩,
               ⟨n3, hostTag, ts, v.2.2⟩]
  | none => []

/-- The full `points_data` list of one cycle (lines 489-568), in source
order: temperature, humidity, pressure (each `round(·, 2)`), the three pm
values, the three gas values, lux and noise (each sent as `float(·)`
without further rounding; noise was already rounded to one decimal at its
read site, line 484). -/
def buildPoints (hostTag ts : String) (temp hum pres : Option ℚ)
    (pm : Option (ℚ × ℚ × ℚ)) (gasData : Option (ℚ × ℚ × ℚ))
    (lux noiseDba : Option ℚ) : List Point :=
  optPoint "temperature" hostTag ts pyRound2 temp
  ++ optPoint "humidity" hostTag ts pyRound2 hum
  ++ optPoint "pressure" hostTag ts pyRound2 pres
  ++ triplePoints "pm1" "pm2_5" "pm10" hostTag ts pm
  ++ triplePoints "oxidising" "reducing" "nh3" hostTag ts gasData
  ++ optPoint "lux" hostTag ts id lux
  ++ optPoint "noise_dba" hostTag ts id noiseDba

lemma optPoint_tags (name hostTag ts : String) (f : ℚ → ℚ) (o : Option ℚ) :
    ∀ p ∈ optPoint name hostTag ts f o, p.device = hostTag ∧ p.time = ts := by
  cases o <;> simp [optPoint]

lemma triplePoints_tags (n1 n2 n3 hostTag ts : String) (o : Option (ℚ × ℚ × ℚ)) :
    ∀ p ∈ triplePoints n1 n2 n3 hostTag ts o,
      p.device = hostTag ∧ p.time = ts := by
  cases o <;> simp [triplePoints]

lemma optPoint_filter_self (name hostTag ts : String) (f : ℚ → ℚ)
    (o : Option ℚ) :
    (optPoint name hostTag ts f o).filter (fun p => p.measurement == name)
      = optPoint name hostTag ts f o := by
  cases o <;> simp [optPoint]

lemma optPoint_filter_other (name hostTag ts : String) (f : ℚ → ℚ)
    (o : Option ℚ) (n : String) (h : name ≠ n) :
    (optPoint name hostTag ts f o).filter (fun p => p.measurement == n)
      = [] := by
  cases o <;> simp [optPoint, h]

lemma triplePoints_filter_other (n1 n2 n3 hostTag ts : String)
    (o : Option (ℚ × ℚ × ℚ)) (n : String)
    (h1 : n1 ≠ n) (h2 : n2 ≠ n) (h3 : n3 ≠ n) :
    (triplePoints n1 n2 n3 hostTag ts o).filter (fun p => p.measurement == n)
      = [] := by
  cases o <;> simp [triplePoints, h1, h2, h3]

lemma triplePoints_filter_fst (n1 n2 n3 hostTag ts : String)
    (o : Option (ℚ × ℚ × ℚ)) (h2 : n2 ≠ n1) (h3 : n3 ≠ n1) :
    (triplePoints n1 n2 n3 hostTag ts o).filter (fun p => p.measurement == n1)
      = (o.map (fun v => Point.mk n1 hostTag ts v.1)).toList := by
  cases o <;> simp [triplePoints, h2, h3]

lemma triplePoints_filter_snd (n1 n2 n3 hostTag ts : String)
    (o : Option (ℚ × ℚ × ℚ)) (h1 : n1 ≠ n2) (h3 : n3 ≠ n2) :
    (triplePoints n1 n2 n3 hostTag ts o).filter (fun p => p.measurement == n2)
      = (o.map (fun v => Point.mk n2 hostTag ts v.2.1)).toList := by
  cases o <;> simp [triplePoints, h1, h3]

lemma triplePoints_filter_thd (n1 n2 n3 hostTag ts : String)
    (o : Option (ℚ × ℚ × ℚ)) (h1 : n1 ≠ n3) (h2 : n2 ≠ n3) :
    (triplePoints n1 n2 n3 hostTag ts o).filter (fun p => p.measurement == n3)
      = (o.map (fun v => Point.mk n3 hostTag ts v.2.2)).toList := by
  cases o <;> simp [triplePoints, h1, h2]

lemma optPoint_filter_toList (name hostTag ts : String) (f : ℚ → ℚ)
    (o : Option ℚ) :
    (optPoint name hostTag ts f o).filter (fun p => p.measurement == name)
      = (o.map (fun x => Point.mk name hostTag ts (f x))).toList := by
  cases o <;> simp [optPoint]

/-- Counterexample to C7 as stated: a lux reading of 0.125 (within the lux
sanitizer bounds) is sent as `float(lux)` with no rounding at all — the
emitted field value is neither its 2-decimal nor its 1-decimal rounding,
so not every numeric field value is rounded to a fixed per-metric decimal
precision. -/
lemma rat_floor_eq_intFloor (q : ℚ) : q.floor = ⌊q⌋ := by
  rw [Rat.floor_def', ← Rat.floor_def]

theorem buildPoints_unrounded_value_counterexample :
    buildPoints "raspberry-pi" "t0" none none none none none (some (1/8)) none
      = [Point.mk "lux" "raspberry-pi" "t0" (1/8)] ∧
    (1 : ℚ)/8 ≠ pyRound2 (1/8) ∧ (1 : ℚ)/8 ≠ pyRound1 (1/8) := by
  have h2 : pyRound2 ((1:ℚ)/8) = 3/25 := by
    have hm : ((1 : ℚ)/8 * 100) = 25/2 := by norm_num
    have hval : roundHalfToEven ((25:ℚ)/2) = 12 := by
      simp only [roundHalfToEven]
      rw [rat_floor_eq_intFloor]
      have hf : ⌊(25/2 : ℚ)⌋ = 12 := by
        rw [Int.floor_eq_iff]
        constructor <;> norm_num
      rw [hf, if_neg (by push_cast; norm_num), if_neg (by push_cast; norm_num),
        if_pos (by decide)]
    rw [pyRound2, hm, hval]
    norm_num
  have h1 : pyRound1 ((1:ℚ)/8) = 1/10 := by
    have hm : ((1 : ℚ)/8 * 10) = 5/4 := by norm_num
    have hval : roundHalfToEven ((5:ℚ)/4) = 1 := by
      simp only [roundHalfToEven]
      rw [rat_floor_eq_intFloor]
      have hf : ⌊(5/4 : ℚ)⌋ = 1 := by
        rw [Int.floor_eq_iff]
        constructor <;> norm_num
      rw [hf, if_pos (by push_cast; norm_num)]
    rw [pyRound1, hm, hval]
    norm_num
  refine ⟨rfl, ?_, ?_⟩
  · rw [h2]; norm_num
  · rw [h1]; norm_num

/-- C7 (amended): the built batch contains a measurement entry exactly for
the metrics whose value is non-absent (absent ones are omitted — no null
fields), every entry carries the fixed device tag and cycle timestamp, and
the per-metric value transforms are: temperature, humidity and pressure
rounded to 2 decimals; pm, gas and lux values sent unrounded (the noise
value was already rounded to 1 decimal at its read site). -/
theorem buildPoints_spec (hostTag ts : String) (temp hum pres : Option ℚ)
    (pm gasData : Option (ℚ × ℚ × ℚ)) (lux noiseDba : Option ℚ) :
    (∀ p ∈ buildPoints hostTag ts temp hum pres pm gasData lux noiseDba,
      p.device = hostTag ∧ p.time = ts) ∧
    ((buildPoints hostTag ts temp hum pres pm gasData lux noiseDba).filter
        (fun p => p.measurement == "temperature")
      = (temp.map (fun x => Point.mk "temperature" hostTag ts (pyRound2 x))).toList) ∧
    ((buildPoints hostTag ts temp hum pres pm gasData lux noiseDba).filter
        (fun p => p.measurement == "humidity")
      = (hum.map (fun x => Point.mk "humidity" hostTag ts (pyRound2 x))).toList) ∧
    ((buildPoints hostTag ts temp hum pres pm gasData lux noiseDba).filter
        (fun p => p.measurement == "pressure")
      = (pres.map (fun x => Point.mk "pressure" hostTag ts (pyRound2 x))).toList) ∧
    ((buildPoints hostTag ts temp hum pres pm gasData lux noiseDba).filter
        (fun p => p.measurement == "pm1")
      = (pm.map (fun v => Point.mk "pm1" hostTag ts v.1)).toList) ∧
    ((buildPoints hostTag ts temp hum pres pm gasData lux noiseDba).filter
        (fun p => p.measurement == "pm2_5")
      = (pm.map (fun v => Point.mk "pm2_5" hostTag ts v.2.1)).toList) ∧
    ((buildPoints hostTag ts temp hum pres pm gasData lux noiseDba).filter
        (fun p => p.measurement == "pm10")
      = (pm.map (fun v => Point.mk "pm10" hostTag ts v.2.2)).toList) ∧
    ((buildPoints hostTag ts temp hum pres pm gasData lux noiseDba).filter
        (fun p => p.measurement == "oxidising")
      = (gasData.map (fun v => Point.mk "oxidising" hostTag ts v.1)).toList) ∧
    ((buildPoints hostTag ts temp hum pres pm gasData lux noiseDba).filter
        (fun p => p.measurement == "reducing")
      = (gasData.map (fun v => Point.mk "reducing" hostTag ts v.2.1)).toList) ∧
    ((buildPoints hostTag ts temp hum pres pm gasData lux noiseDba).filter
        (fun p => p.measurement == "nh3")
      = (gasData.map (fun v => Point.mk "nh3" hostTag ts v.2.2)).toList) ∧
    ((buildPoints hostTag ts temp hum pres pm gasData lux noiseDba).filter
        (fun p => p.measurement == "lux")
      = (lux.map (fun x => Point.mk "lux" hostTag ts x)).toList) ∧
    ((buildPoints hostTag ts temp hum pres pm gasData lux noiseDba).filter
        (fun p => p.measurement == "noise_dba")
      = (noiseDba.map (fun x => Point.mk "noise_dba" hostTag ts x)).toList) := by
  refine ⟨?_, ?_, ?_, ?_, ?_, ?_, ?_, ?_, ?_, ?_, ?_, ?_⟩
  · intro p hp
    simp only [buildPoints, List.mem_append] at hp
    rcases hp with ((((((hp | hp) | hp) | hp) | hp) | hp) | hp)
    · exact optPoint_tags _ _ _ _ _ p hp
    · exact optPoint_tags _ _ _ _ _ p hp
    · exact optPoint_tags _ _ _ _ _ p hp
    · exact triplePoints_tags _ _ _ _ _ _ p hp
    · exact triplePoints_tags _ _ _ _ _ _ p hp
    · exact optPoint_tags _ _ _ _ _ p hp
    · exact optPoint_tags _ _ _ _ _ p hp
  · simp only [buildPoints, List.filter_append]
    rw [optPoint_filter_toList "temperature" hostTag ts pyRound2 temp,
      optPoint_filter_other "humidity" hostTag ts pyRound2 hum "temperature" (by decide),
      optPoint_filter_other "pressure" hostTag ts pyRound2 pres "temperature" (by decide),
      triplePoints_filter_other "pm1" "pm2_5" "pm10" hostTag ts pm "temperature" (by decide) (by decide) (by decide),
      triplePoints_filter_other "oxidising" "reducing" "nh3" hostTag ts gasData "temperature" (by decide) (by decide) (by decide),
      optPoint_filter_other "lux" hostTag ts id lux "temperature" (by decide),
      optPoint_filter_other "noise_dba" hostTag ts id noiseDba "temperature" (by decide)]
    simp
  · simp only [buildPoints, List.filter_append]
    rw [optPoint_filter_other "temperature" hostTag ts pyRound2 temp "humidity" (by decide),
      optPoint_filter_toList "humidity" hostTag ts pyRound2 hum,
      optPoint_filter_other "pressure" hostTag ts pyRound2 pres "humidity" (by decide),
      triplePoints_filter_other "pm1" "pm2_5" "pm10" hostTag ts pm "humidity" (by decide) (by decide) (by decide),
      triplePoints_filter_other "oxidising" "reducing" "nh3" hostTag ts gasData "humidity" (by decide) (by decide) (by decide),
      optPoint_filter_other "lux" hostTag ts id lux "humidity" (by decide),
      optPoint_filter_other "noise_dba" hostTag ts id noiseDba "humidity" (by decide)]
    simp
  · simp only [buildPoints, List.filter_append]
    rw [optPoint_filter_other "temperature" hostTag ts pyRound2 temp "pressure" (by decide),
      optPoint_filter_other "humidity" hostTag ts pyRound2 hum "pressure" (by decide),
      optPoint_filter_toList "pressure" hostTag ts pyRound2 pres,
      triplePoints_filter_other "pm1" "pm2_5" "pm10" hostTag ts pm "pressure" (by decide) (by decide) (by decide),
      triplePoints_filter_other "oxidising" "reducing" "nh3" hostTag ts gasData "pressure" (by decide) (by decide) (by decide),
      optPoint_filter_other "lux" hostTag ts id lux "pressure" (by decide),
      optPoint_filter_other "noise_dba" hostTag ts id noiseDba "pressure" (by decide)]
    simp
  · simp only [buildPoints, List.filter_append]
    rw [optPoint_filter_other "temperature" hostTag ts pyRound2 temp "pm1" (by decide),
      optPoint_filter_other "humidity" hostTag ts pyRound2 hum "pm1" (by decide),
      optPoint_filter_other "pressure" hostTag ts pyRound2 pres "pm1" (by decide),
      triplePoints_filter_fst "pm1" "pm2_5" "pm10" hostTag ts pm (by decide) (by decide),
      triplePoints_filter_other "oxidising" "reducing" "nh3" hostTag ts gasData "pm1" (by decide) (by decide) (by decide),
      optPoint_filter_other "lux" hostTag ts id lux "pm1" (by decide),
      optPoint_filter_other "noise_dba" hostTag ts id noiseDba "pm1" (by decide)]
    simp
  · simp only [buildPoints, List.filter_append]
    rw [optPoint_filter_other "temperature" hostTag ts pyRound2 temp "pm2_5" (by decide),
      optPoint_filter_other "humidity" hostTag ts pyRound2 hum "pm2_5" (by decide),
      optPoint_filter_other "pressure" hostTag ts pyRound2 pres "pm2_5" (by decide),
      triplePoints_filter_snd "pm1" "pm2_5" "pm10" hostTag ts pm (by decide) (by decide),
      triplePoints_filter_other "oxidising" "reducing" "nh3" hostTag ts gasData "pm2_5" (by decide) (by decide) (by decide),
      optPoint_filter_other "lux" hostTag ts id lux "pm2_5" (by decide),
      optPoint_filter_other "noise_dba" hostTag ts id noiseDba "pm2_5" (by decide)]
    simp
  · simp only [buildPoints, List.filter_append]
    rw [optPoint_filter_other "temperature" hostTag ts pyRound2 temp "pm10" (by decide),
      optPoint_filter_other "humidity" hostTag ts pyRound2 hum "pm10" (by decide),
      optPoint_filter_other "pressure" hostTag ts pyRound2 pres "pm10" (by decide),
      triplePoints_filter_thd "pm1" "pm2_5" "pm10" hostTag ts pm (by decide) (by decide),
      triplePoints_filter_other "oxidising" "reducing" "nh3" hostTag ts gasData "pm10" (by decide) (by decide) (by decide),
      optPoint_filter_other "lux" hostTag ts id lux "pm10" (by decide),
      optPoint_filter_other "noise_dba" hostTag ts id noiseDba "pm10" (by decide)]
    simp
  · simp only [buildPoints, List.filter_append]
    rw [optPoint_filter_other "temperature" hostTag ts pyRound2 temp "oxidising" (by decide),
      optPoint_filter_other "humidity" hostTag ts pyRound2 hum "oxidising" (by decide),
      optPoint_filter_other "pressure" hostTag ts pyRound2 pres "oxidising" (by decide),
      triplePoints_filter_other "pm1" "pm2_5" "pm10" hostTag ts pm "oxidising" (by decide) (by decide) (by decide),
      triplePoints_filter_fst "oxidising" "reducing" "nh3" hostTag ts gasData (by decide) (by decide),
      optPoint_filter_other "lux" hostTag ts id lux "oxidising" (by decide),
      optPoint_filter_other "noise_dba" hostTag ts id noiseDba "oxidising" (by decide)]
    simp
  · simp only [buildPoints, List.filter_append]
    rw [optPoint_filter_other "temperature" hostTag ts pyRound2 temp "reducing" (by decide),
      optPoint_filter_other "humidity" hostTag ts pyRound2 hum "reducing" (by decide),
      optPoint_filter_other "pressure" hostTag ts pyRound2 pres "reducing" (by decide),
      triplePoints_filter_other "pm1" "pm2_5" "pm10" hostTag ts pm "reducing" (by decide) (by decide) (by decide),
      triplePoints_filter_snd "oxidising" "reducing" "nh3" hostTag ts gasData (by decide) (by decide),
      optPoint_filter_other "lux" hostTag ts id lux "reducing" (by decide),
      optPoint_filter_other "noise_dba" hostTag ts id noiseDba "reducing" (by decide)]
    simp
  · simp only [buildPoints, List.filter_append]
    rw [optPoint_filter_other "temperature" hostTag ts pyRound2 temp "nh3" (by decide),
      optPoint_filter_other "humidity" hostTag ts pyRound2 hum "nh3" (by decide),
      optPoint_filter_other "pressure" hostTag ts pyRound2 pres "nh3" (by decide),
      triplePoints_filter_other "pm1" "pm2_5" "pm10" hostTag ts pm "nh3" (by decide) (by decide) (by decide),
      triplePoints_filter_thd "oxidising" "reducing" "nh3" hostTag ts gasData (by decide) (by decide),
      optPoint_filter_other "lux" hostTag ts id lux "nh3" (by decide),
      optPoint_filter_other "noise_dba" hostTag ts id noiseDba "nh3" (by decide)]
    simp
  · simp only [buildPoints, List.filter_append]
    rw [optPoint_filter_other "temperature" hostTag ts pyRound2 temp "lux" (by decide),
      optPoint_filter_other "humidity" hostTag ts pyRound2 hum "lux" (by decide),
      optPoint_filter_other "pressure" hostTag ts pyRound2 pres "lux" (by decide),
      triplePoints_filter_other "pm1" "pm2_5" "pm10" hostTag ts pm "lux" (by decide) (by decide) (by decide),
      triplePoints_filter_other "oxidising" "reducing" "nh3" hostTag ts gasData "lux" (by decide) (by decide) (by decide),
      optPoint_filter_toList "lux" hostTag ts id lux,
      optPoint_filter_other "noise_dba" hostTag ts id noiseDba "lux" (by decide)]
    simp
  · simp only [buildPoints, List.filter_append]
    rw [optPoint_filter_other "temperature" hostTag ts pyRound2 temp "noise_dba" (by decide),
      optPoint_filter_other "humidity" hostTag ts pyRound2 hum "noise_dba" (by decide),
      optPoint_filter_other "pressure" hostTag ts pyRound2 pres "noise_dba" (by decide),
      triplePoints_filter_other "pm1" "pm2_5" "pm10" hostTag ts pm "noise_dba" (by decide) (by decide) (by decide),
      triplePoints_filter_other "oxidising" "reducing" "nh3" hostTag ts gasData "noise_dba" (by decide) (by decide) (by decide),
      optPoint_filter_other "lux" hostTag ts id lux "noise_dba" (by decide),
      optPoint_filter_toList "noise_dba" hostTag ts id noiseDba]
    simp

/-! ## Cycle scheduler (main loop, lines 424-617)

The whole cycle body runs inside one `try`; `KeyboardInterrupt` breaks the
loop (lines 602-604) and any other exception is caught at the iteration
boundary, logged, and the loop continues (lines 605-617). One iteration's
outcome is `ok`, `err` (an unhandled in-cycle failure reached the
boundary handler) or `interrupt`. `cycleSleep` returns `none` when the
loop exits and `some s` when it continues after sleeping `s` seconds
(`some 0` = proceed immediately with no sleep call). -/

inductive CycleEvent
  | ok
  | err
  | interrupt
deriving DecidableEq

/-- End-of-iteration wait: on the normal path (lines 590-598) sleep
`INTERVAL_SEC - elapsed` if positive, else log the overrun and proceed
immediately; on the error path (lines 609-617) sleep the same positive
remainder, but on overrun sleep a fixed minimum of 1 second; on
`KeyboardInterrupt` exit the loop. -/
def cycleSleep (period elapsed : ℚ) : CycleEvent → Option ℚ
  | CycleEvent.ok => some (if 0 < period - elapsed then period - elapsed else 0)
  | CycleEvent.err => some (if 0 < period - elapsed then period - elapsed else 1)
  | CycleEvent.interrupt => none

/-- Counterexample to C8 as stated: after an iteration that overran its
period (elapsed 61 s of a 60 s period), the post-error wait sleeps 1
second while a normal iteration proceeds immediately — the two waits are
not the same. -/
theorem scheduler_error_overrun_sleep_differs :
    cycleSleep 60 61 CycleEvent.err = some 1 ∧
    cycleSleep 60 61 CycleEvent.ok = some 0 ∧
    cycleSleep 60 61 CycleEvent.err ≠ cycleSleep 60 61 CycleEvent.ok := by
  have hneg : ¬(0 : ℚ) < 60 - 61 := by norm_num
  refine ⟨?_, ?_, ?_⟩
  · rw [cycleSleep, if_neg hneg]
  · rw [cycleSleep, if_neg hneg]
  · rw [cycleSleep, cycleSleep, if_neg hneg, if_neg hneg]
    simp

/-- C8 (amended): an unhandled failure inside one scheduler iteration is
caught at the iteration boundary and the loop continues — it exits only on
an explicit external interrupt; the post-error wait equals the normal
overrun-aware wait whenever the iteration finished within its period, but
on an overrun the error path sleeps a fixed minimum of 1 second instead of
proceeding immediately as the normal path does. -/
theorem scheduler_boundary_spec (period elapsed : ℚ) (ev : CycleEvent) :
    (cycleSleep period elapsed ev = none ↔ ev = CycleEvent.interrupt) ∧
    (0 < period - elapsed →
      cycleSleep period elapsed CycleEvent.err
        = cycleSleep period elapsed CycleEvent.ok) ∧
    (period - elapsed ≤ 0 →
      cycleSleep period elapsed CycleEvent.ok = some 0 ∧
      cycleSleep period elapsed CycleEvent.err = some 1) := by
  refine ⟨?_, ?_, ?_⟩
  · cases ev <;> simp [cycleSleep]
  · intro h
    rw [cycleSleep, cycleSleep, if_pos h, if_pos h]
  · intro h
    have hn : ¬(0 : ℚ) < period - elapsed := not_lt.mpr h
    rw [cycleSleep, cycleSleep, if_neg hn, if_neg hn]
    exact ⟨rfl, rfl⟩

/-- Witness for C8 at a 60-second period and a 30-second iteration. -/
theorem scheduler_boundary_spec_witness :
    cycleSleep 60 30 CycleEvent.err = cycleSleep 60 30 CycleEvent.ok ∧
    cycleSleep 60 30 CycleEvent.interrupt = none :=
  ⟨(scheduler_boundary_spec 60 30 CycleEvent.ok).2.1 (by norm_num),
   (scheduler_boundary_spec 60 30 CycleEvent.interrupt).1.mpr rfl⟩

end PiZero
